import Mathlib

/-!
Verification development for the liquid swap module (swaps/liquid.rs) of the
boltz client: HTLC redeem-script encoding and decoding for submarine and
reverse-submarine swaps, confidential address derivation, and construction
plus signing of the claim transaction.

The embedding models bytes as `Nat` (each < 256), scripts as byte lists, and
Rust panics (`unwrap` on `None`, unsigned overflow in debug builds) as `none`
of an `Option`. External cryptographic primitives from the elements and
secp256k1 crates (hashing, EC scalar multiplication, blech32) are implemented
concretely where a claim evaluates them, and are passed as explicit function
parameters where only their output shape matters (signatures, range proofs).
-/

set_option maxRecDepth 200000

/-! ## Script opcodes (numeric values from elements opcodes::all) -/

def OP_0NOTEQUAL : Nat := 146
def OP_HASH160 : Nat := 169
def OP_EQUAL : Nat := 135
def OP_IF : Nat := 99
def OP_ELSE : Nat := 103
def OP_CLTV : Nat := 177
def OP_DROP : Nat := 117
def OP_ENDIF : Nat := 104
def OP_CHECKSIG : Nat := 172
def OP_SIZE : Nat := 130
def OP_EQUALVERIFY : Nat := 136

/-! ## Little-endian decode (bytes_to_u32_little_endian)

The Rust loop computes `result |= (byte as u32) << (8 * i)`; a shift amount
of 32 or more is an overflow panic (debug semantics), modelled as `none`. -/

def bytes_to_u32_le_go : Nat → Nat → List Nat → Option Nat
  | _, acc, [] => some acc
  | i, acc, b :: t =>
    if 32 ≤ 8 * i then none
    else bytes_to_u32_le_go (i + 1) (acc ||| (b <<< (8 * i))) t

def bytes_to_u32_little_endian (bytes : List Nat) : Option Nat :=
  bytes_to_u32_le_go 0 0 bytes

/-- Specification-side value of a little-endian byte list: sum of
byte i times 2 to the 8*i. -/
def leValue : List Nat → Nat
  | [] => 0
  | b :: t => b + 256 * leValue t

/-! ## Script builder (elements script::Builder)

`push_slice` prefixes data with its length (direct push below 76 bytes,
OP_PUSHDATA1/2/4 above); `push_int` special-cases -1 and 0..16 as single
opcodes and otherwise pushes the minimal signed little-endian encoding
(build_scriptint). Timelocks come from a u32 so only nonnegative values
occur. -/

def leBytesF : Nat → Nat → List Nat
  | 0, _ => []
  | _ + 1, 0 => []
  | f + 1, n => n % 256 :: leBytesF f (n / 256)

/-- Minimal little-endian bytes of a positive integer (build_scriptint for
n > 0): if the top bit of the highest byte is set a 0x00 byte is appended so
the number is not read as negative. -/
def build_scriptint_pos (n : Nat) : List Nat :=
  let v := leBytesF 9 n
  if 128 ≤ v.getLastD 0 then v ++ [0] else v

def push_slice (data : List Nat) : List Nat :=
  if data.length < 76 then data.length :: data
  else if data.length < 256 then 76 :: data.length :: data
  else if data.length < 65536 then 77 :: data.length % 256 :: data.length / 256 :: data
  else 78 :: data.length % 256 :: data.length / 256 % 256 :: data.length / 65536 % 256 :: data.length / 16777216 :: data

def push_int (n : Nat) : List Nat :=
  if 1 ≤ n ∧ n ≤ 16 then [80 + n]
  else if n = 0 then [0]
  else push_slice (build_scriptint_pos n)

def push_key (key : List Nat) : List Nat := push_slice key

/-! ## Instruction stream (elements script::Instruction) -/

inductive Instr where
  | op : Nat → Instr
  | pushBytes : List Nat → Instr
  | err : Instr
deriving DecidableEq, Repr

/-- Instruction parser with explicit fuel (one unit per instruction; the
byte length of the script is always enough). Opcodes 0x00..0x4b are direct
pushes of that many bytes, 0x4c/0x4d/0x4e are OP_PUSHDATA1/2/4 with a
little-endian length, everything else is an ordinary opcode. A truncated
push yields one error element and ends the stream, as the Rust iterator
does. -/
def parseInstrsF : Nat → List Nat → List Instr
  | 0, _ => []
  | _ + 1, [] => []
  | fuel + 1, b :: rest =>
    if b ≤ 75 then
      if rest.length < b then [Instr.err]
      else Instr.pushBytes (rest.take b) :: parseInstrsF fuel (rest.drop b)
    else if b = 76 then
      match rest with
      | [] => [Instr.err]
      | n :: r2 =>
        if r2.length < n then [Instr.err]
        else Instr.pushBytes (r2.take n) :: parseInstrsF fuel (r2.drop n)
    else if b = 77 then
      match rest with
      | n0 :: n1 :: r2 =>
        if r2.length < n0 + 256 * n1 then [Instr.err]
        else Instr.pushBytes (r2.take (n0 + 256 * n1)) :: parseInstrsF fuel (r2.drop (n0 + 256 * n1))
      | _ => [Instr.err]
    else if b = 78 then
      match rest with
      | n0 :: n1 :: n2 :: n3 :: r2 =>
        if r2.length < n0 + 256 * n1 + 65536 * n2 + 16777216 * n3 then [Instr.err]
        else Instr.pushBytes (r2.take (n0 + 256 * n1 + 65536 * n2 + 16777216 * n3))
          :: parseInstrsF fuel (r2.drop (n0 + 256 * n1 + 65536 * n2 + 16777216 * n3))
      | _ => [Instr.err]
    else Instr.op b :: parseInstrsF fuel rest

def parseInstrs (script : List Nat) : List Instr :=
  parseInstrsF script.length script

/-! ## Swap script data model (LBtcSwapScript)

Hex string fields of the Rust struct are modelled as the byte lists they
denote (hex encoding of byte lists is injective); the blinding key pair is
modelled by its secret scalar. -/

inductive BitcoinNetwork where
  | Bitcoin | BitcoinTestnet | Liquid | LiquidTestnet
deriving DecidableEq, Repr

inductive SwapType where
  | Submarine | ReverseSubmarine
deriving DecidableEq, Repr

structure LBtcSwapScript where
  network : BitcoinNetwork
  electrum_url : String
  swap_type : SwapType
  hashlock : List Nat
  reciever_pubkey : List Nat
  timelock : Nat
  sender_pubkey : List Nat
  blinding_key : Nat
deriving DecidableEq, Repr

/-! ## Script decoding (submarine_from_str / reverse_from_str)

The Rust functions scan the instruction stream with a mutable last-seen
opcode, then test field presence with the condition written in the source:
`hashlock.is_some() && sender_pubkey.is_some() && timelock.is_some() &&
sender_pubkey.is_some()` (the receiver key is never tested), and finally
`unwrap()` all four fields. An unwrap of an unset field is a panic. -/

structure ScanState where
  lastOp : Nat
  hashlock : Option (List Nat)
  reciever_pubkey : Option (List Nat)
  timelock : Option Nat
  sender_pubkey : Option (List Nat)
deriving DecidableEq, Repr

def initScanState : ScanState :=
  { lastOp := OP_0NOTEQUAL, hashlock := none, reciever_pubkey := none,
    timelock := none, sender_pubkey := none }

/-- Submarine scan step: a push is assigned by the opcode that precedes it
(HASH160 makes it the hashlock, IF the receiver key, ELSE the timelock via
the little-endian decode, DROP the sender key). `none` propagates the
shift-overflow panic of bytes_to_u32_little_endian. -/
def submarineStep (st : ScanState) : Instr → Option ScanState
  | Instr.op b => some { st with lastOp := b }
  | Instr.err => some st
  | Instr.pushBytes bytes => do
    let s1 := if st.lastOp = OP_HASH160 then { st with hashlock := some bytes } else st
    let s2 := if s1.lastOp = OP_IF then { s1 with reciever_pubkey := some bytes } else s1
    let s3 ←
      if s2.lastOp = OP_ELSE then do
        let t ← bytes_to_u32_little_endian bytes
        pure { s2 with timelock := some t }
      else pure s2
    let s4 := if s3.lastOp = OP_DROP then { s3 with sender_pubkey := some bytes } else s3
    pure s4

/-- Reverse-submarine scan step: HASH160 marks the hashlock, EQUALVERIFY the
receiver key, and a DROP-preceded push is the timelock when it is exactly 3
bytes long and the sender key otherwise. -/
def reverseStep (st : ScanState) : Instr → Option ScanState
  | Instr.op b => some { st with lastOp := b }
  | Instr.err => some st
  | Instr.pushBytes bytes => do
    let s1 := if st.lastOp = OP_HASH160 then { st with hashlock := some bytes } else st
    let s2 := if s1.lastOp = OP_EQUALVERIFY then { s1 with reciever_pubkey := some bytes } else s1
    let s3 ←
      if s2.lastOp = OP_DROP then
        if bytes.length = 3 then do
          let t ← bytes_to_u32_little_endian bytes
          pure { s2 with timelock := some t }
        else pure { s2 with sender_pubkey := some bytes }
      else pure s2
    pure s3

inductive DecodeResult where
  | ok : LBtcSwapScript → DecodeResult
  | inputError : DecodeResult
  | panicked : DecodeResult
deriving DecidableEq, Repr

/-- Shared tail of both decoders: the field-presence check exactly as the
source writes it (sender tested twice, receiver never), then the four
unwraps; an unwrap of a missing receiver key is a panic, not an Input
error. -/
def finishDecode (network : BitcoinNetwork) (electrum_url : String)
    (swap_type : SwapType) (blinding_key : Nat) : Option ScanState → DecodeResult
  | none => DecodeResult.panicked
  | some st =>
    if st.hashlock.isSome ∧ st.sender_pubkey.isSome ∧ st.timelock.isSome
        ∧ st.sender_pubkey.isSome then
      match st.hashlock, st.reciever_pubkey, st.timelock, st.sender_pubkey with
      | some h, some r, some t, some s =>
        DecodeResult.ok
          { network := network, electrum_url := electrum_url,
            swap_type := swap_type, hashlock := h, reciever_pubkey := r,
            timelock := t, sender_pubkey := s, blinding_key := blinding_key }
      | _, _, _, _ => DecodeResult.panicked
    else DecodeResult.inputError

def submarine_from_str (network : BitcoinNetwork) (electrum_url : String)
    (redeem_script : List Nat) (blinding_key : Nat) : DecodeResult :=
  finishDecode network electrum_url SwapType.Submarine blinding_key
    ((parseInstrs redeem_script).foldlM submarineStep initScanState)

def reverse_from_str (network : BitcoinNetwork) (electrum_url : String)
    (redeem_script : List Nat) (blinding_key : Nat) : DecodeResult :=
  finishDecode network electrum_url SwapType.ReverseSubmarine blinding_key
    ((parseInstrs redeem_script).foldlM reverseStep initScanState)

/-! ## Script encoding (to_script) -/

/-- Submarine redeem script:
HASH160 [hashlock] EQUAL IF [receiver key] ELSE [timelock] CLTV DROP
[sender key] ENDIF CHECKSIG. -/
def to_script_submarine (s : LBtcSwapScript) : List Nat :=
  [OP_HASH160] ++ push_slice s.hashlock ++ [OP_EQUAL, OP_IF]
    ++ push_key s.reciever_pubkey ++ [OP_ELSE] ++ push_int s.timelock
    ++ [OP_CLTV, OP_DROP] ++ push_key s.sender_pubkey ++ [OP_ENDIF, OP_CHECKSIG]

/-- Reverse-submarine redeem script:
SIZE [32] EQUAL IF HASH160 [hashlock] EQUALVERIFY [receiver key] ELSE DROP
[timelock] CLTV DROP [sender key] ENDIF CHECKSIG. -/
def to_script_reverse (s : LBtcSwapScript) : List Nat :=
  [OP_SIZE] ++ push_slice [32] ++ [OP_EQUAL, OP_IF, OP_HASH160]
    ++ push_slice s.hashlock ++ [OP_EQUALVERIFY] ++ push_key s.reciever_pubkey
    ++ [OP_ELSE, OP_DROP] ++ push_int s.timelock ++ [OP_CLTV, OP_DROP]
    ++ push_key s.sender_pubkey ++ [OP_ENDIF, OP_CHECKSIG]

def to_script (s : LBtcSwapScript) : List Nat :=
  match s.swap_type with
  | SwapType.Submarine => to_script_submarine s
  | SwapType.ReverseSubmarine => to_script_reverse s

/-! ## Confidential transaction data model (elements types, as used here) -/

/-- An outpoint: transaction id (abstract) and output index. -/
structure OutPoint where
  txid : Nat
  vout : Nat
deriving DecidableEq, Repr

/-- Unblinded secrets of a located txout (elements TxOutSecrets): explicit
asset id, asset blinding factor, value blinding factor and explicit value.
Asset ids and blinding factors are abstract scalars. -/
structure TxOutSecrets where
  asset : Nat
  asset_bf : Nat
  value_bf : Nat
  value : Nat
deriving DecidableEq, Repr

inductive CAsset where
  | explicitA : Nat → CAsset
  | confidentialA : Nat → Nat → CAsset
deriving DecidableEq, Repr

/-- Confidential value: an explicit amount, or a commitment carrying the
committed amount and its value blinding factor. -/
inductive CValue where
  | explicitV : Nat → CValue
  | confidentialV : Nat → Nat → CValue
deriving DecidableEq, Repr

inductive CNonce where
  | null : CNonce
  | confidentialN : Nat → CNonce
deriving DecidableEq, Repr

structure TxOutWitness where
  surjection_proof : Option Nat
  rangeproof : Option Nat
deriving DecidableEq, Repr

structure TxOut where
  asset : CAsset
  value : CValue
  nonce : CNonce
  script_pubkey : List Nat
  witness : TxOutWitness
deriving DecidableEq, Repr

/-- Fee output constructor (elements TxOut::new_fee): explicit asset and
value, no nonce, empty script, no proofs — unblinded by design. -/
def TxOut.new_fee (value : Nat) (asset : Nat) : TxOut :=
  { asset := CAsset.explicitA asset, value := CValue.explicitV value,
    nonce := CNonce.null, script_pubkey := [],
    witness := { surjection_proof := none, rangeproof := none } }

structure TxInWitness where
  amount_rangeproof : Option Nat
  inflation_keys_rangeproof : Option Nat
  script_witness : List (List Nat)
  pegin_witness : List (List Nat)
deriving DecidableEq, Repr

structure TxIn where
  previous_output : OutPoint
  script_sig : List Nat
  sequence : Nat
  witness : TxInWitness
  is_pegin : Bool
deriving DecidableEq, Repr

structure Transaction where
  version : Nat
  lock_time : Nat
  input : List TxIn
  output : List TxOut
deriving DecidableEq, Repr

/-- Address parameter set (elements AddressParams). -/
structure AddressParams where
  p2pkhByte : Nat
  p2shByte : Nat
  blindedByte : Nat
  bechHrp : String
  blechHrp : String
deriving DecidableEq, Repr

def paramsLiquid : AddressParams :=
  { p2pkhByte := 57, p2shByte := 39, blindedByte := 12, bechHrp := "ex", blechHrp := "lq" }

def paramsLiquidTestnet : AddressParams :=
  { p2pkhByte := 36, p2shByte := 19, blindedByte := 23, bechHrp := "tex", blechHrp := "tlq" }

inductive AddressPayload where
  | pubkeyHash : List Nat → AddressPayload
  | scriptHash : List Nat → AddressPayload
  | witnessProgram : Nat → List Nat → AddressPayload
deriving DecidableEq, Repr

/-- An elements address: parameter set, payload, and the optional blinding
public key (33 serialized bytes) making it confidential. -/
structure EAddress where
  params : AddressParams
  payload : AddressPayload
  blinding_pubkey : Option (List Nat)
deriving DecidableEq, Repr

/-- Locking script of an address (elements Address::script_pubkey). -/
def EAddress.script_pubkey (a : EAddress) : List Nat :=
  match a.payload with
  | AddressPayload.pubkeyHash h => [118, OP_HASH160] ++ push_slice h ++ [OP_EQUALVERIFY, OP_CHECKSIG]
  | AddressPayload.scriptHash h => [OP_HASH160] ++ push_slice h ++ [OP_EQUAL]
  | AddressPayload.witnessProgram v prog => (if v = 0 then [0] else [80 + v]) ++ push_slice prog

structure Preimage where
  bytes : Option (List Nat)
deriving DecidableEq, Repr

inductive SwapTxKind where
  | Claim | Refund
deriving DecidableEq, Repr

inductive ErrorKind where
  | Input | Transaction | Network
deriving DecidableEq, Repr

structure S5Error where
  kind : ErrorKind
  message : String
deriving DecidableEq, Repr

/-! ## The swap transaction (LBtcSwapTx) -/

structure LBtcSwapTx where
  kind : SwapTxKind
  swap_script : LBtcSwapScript
  output_address : EAddress
  absolute_fees : Nat
  utxo : Option OutPoint
  utxo_value : Option Nat
  txout_secrets : Option TxOutSecrets
deriving DecidableEq, Repr

/-- Claim constructor: the destination address string parse is modelled by
its result (`none` = a parse failure, which returns an Input error). -/
def new_claim (swap_script : LBtcSwapScript) (output_address : Option EAddress)
    (absolute_fees : Nat) : Except S5Error LBtcSwapTx :=
  match output_address with
  | none => Except.error { kind := ErrorKind.Input, message := "address parse failure" }
  | some a => Except.ok
      { kind := SwapTxKind.Claim, swap_script := swap_script,
        output_address := a, absolute_fees := absolute_fees,
        utxo := none, utxo_value := none, txout_secrets := none }

def new_refund (swap_script : LBtcSwapScript) (output_address : Option EAddress)
    (absolute_fees : Nat) : Except S5Error LBtcSwapTx :=
  match output_address with
  | none => Except.error { kind := ErrorKind.Input, message := "address parse failure" }
  | some a => Except.ok
      { kind := SwapTxKind.Refund, swap_script := swap_script,
        output_address := a, absolute_fees := absolute_fees,
        utxo := none, utxo_value := none, txout_secrets := none }

/-- manual_utxo_update sets the outpoint and the value; it leaves
txout_secrets untouched. -/
def manual_utxo_update (self : LBtcSwapTx) (utxo : OutPoint) (value : Nat) : LBtcSwapTx :=
  { self with utxo := some utxo, utxo_value := some value }

def has_utxo (self : LBtcSwapTx) : Bool :=
  self.utxo.isSome && self.utxo_value.isSome

def check_utxo_value (self : LBtcSwapTx) (expected_value : Nat) : Bool :=
  has_utxo self && self.utxo_value.getD 0 == expected_value

/-- Effect of fetch_utxo on the swap transaction, the chain query being
summarised by its outcome: `some` when an output paying the swap address was
found (its outpoint, unblinded value and unblinded secrets), `none` when no
output matched, in which case nothing is recorded. -/
def fetch_utxo (self : LBtcSwapTx) (located : Option (OutPoint × Nat × TxOutSecrets)) :
    LBtcSwapTx :=
  match located with
  | none => self
  | some (op, v, s) =>
    { self with utxo := some op, utxo_value := some v, txout_secrets := some s }

/-! ## Claim construction and signing (sign_claim_tx)

Randomness and external cryptographic primitives are passed explicitly: the
drawn asset blinding factor, the ephemeral ECDH public key stored as the
output nonce, opaque proof blobs, the segwit-v0 sighash function and the
DER serialization of the low-R ECDSA signature. The construction is
faithful in everything the claims observe: field wiring, amounts, order of
outputs and of witness elements, and each unwrap / unsigned subtraction as
a `none` (panic). -/

structure CryptoEnv where
  outAbf : Nat
  noncePub : Nat
  surjProofId : Nat
  rangeproofId : Nat
  sighash : Transaction → List Nat → CValue → Nat
  signDer : Nat → Nat → List Nat

/-- Rust debug-build unsigned subtraction: panics (none) when the
subtrahend exceeds the minuend. -/
def checkedSub (a b : Nat) : Option Nat :=
  if b ≤ a then some (a - b) else none

/-- Curve order of secp256k1, the scalar field of blinding factors. -/
def secpN : Nat :=
  0xFFFFFFFFFFFFFFFFFFFFFFFFFFFFFFFEBAAEDCE6AF48A03BBFD25E8CD0364141

/-- ValueBlindingFactor::last: the unique scalar making the Pedersen
commitments balance, namely the sum of the input terms value*abf + vbf
minus the other outputs terms minus the last output value times its asset
blinding factor, in the scalar field. -/
def vbfLast (lastValue lastAbf : Nat) (inputs outputs : List (Nat × Nat × Nat)) : Nat :=
  (((inputs.map (fun t => (t.1 * t.2.1 + t.2.2 : Int))).sum
    - ((outputs.map (fun t => (t.1 * t.2.1 + t.2.2 : Int))).sum)
    - ((lastValue : Int) * (lastAbf : Int))) % (secpN : Int)).toNat

/-- Values sign_claim_tx unwraps before assembling the transaction. -/
structure ClaimParts where
  outpoint : OutPoint
  secrets : TxOutSecrets
  utxoValue : Nat
  outputValue : Nat
  blindingPub : List Nat
  preimageBytes : List Nat
deriving DecidableEq, Repr

/-- Unsigned input: spends the located outpoint, maximal (final) sequence,
empty script_sig, placeholder witness. -/
def claim_unsigned_input (cp : ClaimParts) : TxIn :=
  { previous_output := cp.outpoint, script_sig := [], sequence := 4294967295,
    witness := { amount_rangeproof := none, inflation_keys_rangeproof := none,
                 script_witness := [], pegin_witness := [] },
    is_pegin := false }

/-- The balance-equation call of the construction: one input (the located
utxo secrets) and one other output, the fee, entered with zero asset and
value blinding factors. -/
def claim_final_vbf (env : CryptoEnv) (self : LBtcSwapTx) (cp : ClaimParts) : Nat :=
  vbfLast cp.outputValue env.outAbf
    [(cp.secrets.value, cp.secrets.asset_bf, cp.secrets.value_bf)]
    [(self.absolute_fees, 0, 0)]

/-- The blinded value commitment of the payment output: commits to
output_value under the balancing blinding factor. -/
def claim_blinded_value (env : CryptoEnv) (self : LBtcSwapTx) (cp : ClaimParts) : CValue :=
  CValue.confidentialV cp.outputValue (claim_final_vbf env self cp)

def claim_payment_output (env : CryptoEnv) (self : LBtcSwapTx) (cp : ClaimParts) : TxOut :=
  { script_pubkey := self.output_address.script_pubkey,
    value := claim_blinded_value env self cp,
    asset := CAsset.confidentialA cp.secrets.asset env.outAbf,
    nonce := CNonce.confidentialN env.noncePub,
    witness := { surjection_proof := some env.surjProofId,
                 rangeproof := some env.rangeproofId } }

def claim_fee_output (self : LBtcSwapTx) (cp : ClaimParts) : TxOut :=
  TxOut.new_fee self.absolute_fees cp.secrets.asset

def claim_unsigned_tx (env : CryptoEnv) (self : LBtcSwapTx) (cp : ClaimParts) : Transaction :=
  { version := 2, lock_time := self.swap_script.timelock,
    input := [claim_unsigned_input cp],
    output := [claim_payment_output env self cp, claim_fee_output self cp] }

/-- Sighash message: segwit-v0 sighash of input 0 over the redeem script
and the blinded value, sighash mode All (as the source passes them). -/
def claim_sighash (env : CryptoEnv) (self : LBtcSwapTx) (cp : ClaimParts) : Nat :=
  env.sighash (claim_unsigned_tx env self cp) (to_script self.swap_script)
    (claim_blinded_value env self cp)

/-- elementssig_to_rawsig: DER bytes of the low-R signature with the
sighash type byte (All = 1) appended. -/
def claim_raw_sig (env : CryptoEnv) (self : LBtcSwapTx) (keys : Nat) (cp : ClaimParts) :
    List Nat :=
  env.signDer (claim_sighash env self cp) keys ++ [1]

/-- Witness stack: empty element, signature, preimage, redeem script. -/
def claim_script_witness (env : CryptoEnv) (self : LBtcSwapTx) (keys : Nat)
    (cp : ClaimParts) : List (List Nat) :=
  [[], claim_raw_sig env self keys cp, cp.preimageBytes, to_script self.swap_script]

def claim_signed_txin (env : CryptoEnv) (self : LBtcSwapTx) (keys : Nat)
    (cp : ClaimParts) : TxIn :=
  { previous_output := cp.outpoint, script_sig := [], sequence := 4294967295,
    witness := { amount_rangeproof := none, inflation_keys_rangeproof := none,
                 script_witness := claim_script_witness env self keys cp,
                 pegin_witness := [] },
    is_pegin := false }

def claim_signed_tx (env : CryptoEnv) (self : LBtcSwapTx) (keys : Nat)
    (cp : ClaimParts) : Transaction :=
  { version := 2, lock_time := self.swap_script.timelock,
    input := [claim_signed_txin env self keys cp],
    output := [claim_payment_output env self cp, claim_fee_output self cp] }

/-- sign_claim_tx: each `unwrap()` of the source in source order, the
unsigned subtraction `utxo_value - absolute_fees` checked as Rust debug
builds do (underflow is a panic, `none`), then the assembled signed
transaction. -/
def sign_claim_tx (env : CryptoEnv) (self : LBtcSwapTx) (keys : Nat)
    (preimage : Preimage) : Option Transaction :=
  match self.utxo with
  | none => none
  | some op =>
    match self.txout_secrets with
    | none => none
    | some secrets =>
      match self.utxo_value with
      | none => none
      | some v =>
        match checkedSub v self.absolute_fees with
        | none => none
        | some outputValue =>
          match self.output_address.blinding_pubkey with
          | none => none
          | some bp =>
            match preimage.bytes with
            | none => none
            | some pb =>
              some (claim_signed_tx env self keys
                { outpoint := op, secrets := secrets, utxoValue := v,
                  outputValue := outputValue, blindingPub := bp, preimageBytes := pb })

/-- Refund signing stub: does nothing. -/
def sign_refund_tx (_self : LBtcSwapTx) (_keys : Nat) : Unit := ()

/-- drain: refresh the utxo (the chain query summarised by `located`), guard
on has_utxo (a Transaction error when absent), then sign by kind: Claim
signs (panics propagate as none), Refund invokes the stub and always
returns a Transaction error. -/
def drain (env : CryptoEnv) (located : Option (OutPoint × Nat × TxOutSecrets))
    (self : LBtcSwapTx) (keys : Nat) (preimage : Preimage) :
    Option (Except S5Error Transaction) :=
  let s := fetch_utxo self located
  if ¬ has_utxo s then
    some (Except.error { kind := ErrorKind.Transaction, message := "No utxos available yet" })
  else
    match s.kind with
    | SwapTxKind.Claim =>
      match sign_claim_tx env s keys preimage with
      | none => none
      | some tx => some (Except.ok tx)
    | SwapTxKind.Refund =>
      let _ := sign_refund_tx s keys
      some (Except.error
        { kind := ErrorKind.Transaction, message := "Refund transaction signing not supported yet" })

/-! ## Hex strings -/

def hexDigit (c : Char) : Option Nat :=
  if 48 ≤ c.toNat ∧ c.toNat ≤ 57 then some (c.toNat - 48)
  else if 97 ≤ c.toNat ∧ c.toNat ≤ 102 then some (c.toNat - 87)
  else if 65 ≤ c.toNat ∧ c.toNat ≤ 70 then some (c.toNat - 55)
  else none

def hexDecodeGo : List Char → Option (List Nat)
  | [] => some []
  | [_] => none
  | hi :: lo :: t => do
    let h ← hexDigit hi
    let l ← hexDigit lo
    let rest ← hexDecodeGo t
    pure ((16 * h + l) :: rest)

def hexDecode (s : String) : Option (List Nat) :=
  hexDecodeGo s.toList

/-! ## secp256k1 scalar multiplication

Used to derive the public key of a secret key (the receiver key check and
the blinding public key of the address). Field elements are naturals mod
the field prime; points are Jacobian triples with z = 0 for infinity. -/

def secpP : Nat := 2 ^ 256 - 2 ^ 32 - 977

def secpGx : Nat :=
  0x79BE667EF9DCBBAC55A06295CE870B07029BFCDB2DCE28D959F2815B16F81798

def secpGy : Nat :=
  0x483ADA7726A3C4655DA4FBFC0E1108A8FD17B448A68554199C47D08FFB10D4B8

/-- Modular exponentiation by repeated squaring, fuel-recursive so that the
kernel can evaluate it (300 units cover any 256-bit exponent). -/
def powModF : Nat → Nat → Nat → Nat → Nat
  | _, 0, _, _ => 1
  | m, _ + 1, _, 0 => 1 % m
  | m, f + 1, a, n =>
    let r := powModF m f (a * a % m) (n / 2)
    if n % 2 = 1 then r * a % m else r

def invModP (a : Nat) : Nat := powModF secpP 300 a (secpP - 2)

def fsub (a b : Nat) : Nat := (a + secpP - b % secpP) % secpP

structure JPoint where
  x : Nat
  y : Nat
  z : Nat
deriving DecidableEq, Repr

def jInf : JPoint := { x := 1, y := 1, z := 0 }

/-- Jacobian doubling on secp256k1 (a = 0). -/
def jDouble (p : JPoint) : JPoint :=
  if p.z = 0 then p
  else
    let ysq := p.y * p.y % secpP
    let s := 4 * p.x * ysq % secpP
    let m := 3 * (p.x * p.x % secpP) % secpP
    let x3 := fsub (m * m % secpP) (2 * s)
    let y3 := fsub (m * (fsub s x3) % secpP) (8 * (ysq * ysq % secpP))
    let z3 := 2 * p.y * p.z % secpP
    { x := x3, y := y3, z := z3 }

/-- Mixed Jacobian plus affine addition. -/
def jAddAffine (p : JPoint) (qx qy : Nat) : JPoint :=
  if p.z = 0 then { x := qx, y := qy, z := 1 }
  else
    let z2 := p.z * p.z % secpP
    let u2 := qx * z2 % secpP
    let s2 := qy * (z2 * p.z % secpP) % secpP
    let h := fsub u2 p.x
    let r := fsub s2 p.y
    if h = 0 then
      if r = 0 then jDouble p else jInf
    else
      let h2 := h * h % secpP
      let h3 := h2 * h % secpP
      let uh2 := p.x * h2 % secpP
      let x3 := fsub (fsub (r * r % secpP) h3) (2 * uh2)
      let y3 := fsub (r * (fsub uh2 x3) % secpP) (p.y * h3 % secpP)
      let z3 := p.z * h % secpP
      { x := x3, y := y3, z := z3 }

/-- Double-and-add over the top `i` bits of the scalar. -/
def smulGo : Nat → JPoint → Nat → JPoint
  | 0, acc, _ => acc
  | i + 1, acc, d =>
    let acc2 := jDouble acc
    let acc3 := if d.testBit i then jAddAffine acc2 secpGx secpGy else acc2
    smulGo i acc3 d

/-- Affine coordinates of d*G, `none` for the identity. -/
def pubkeyPoint (d : Nat) : Option (Nat × Nat) :=
  let p := smulGo 256 jInf d
  if p.z = 0 then none
  else
    let zi := invModP p.z
    let zi2 := zi * zi % secpP
    some (p.x * zi2 % secpP, p.y * (zi2 * zi % secpP) % secpP)

/-- Big-endian bytes, fixed width. -/
def beBytes : Nat → Nat → List Nat
  | 0, _ => []
  | k + 1, n => beBytes k (n / 256) ++ [n % 256]

/-- Serialized compressed public key of a secret scalar: parity prefix byte
then the 32 big-endian bytes of x. -/
def publicKeyCompressed (d : Nat) : List Nat :=
  match pubkeyPoint d with
  | none => []
  | some (x, y) => (if y % 2 = 0 then 2 else 3) :: beBytes 32 x

/-! ## SHA-256 (witness program of the p2wsh address) -/

def sha256K : List Nat :=
  [1116352408, 1899447441, 3049323471, 3921009573, 961987163, 1508970993,
   2453635748, 2870763221, 3624381080, 310598401, 607225278, 1426881987,
   1925078388, 2162078206, 2614888103, 3248222580, 3835390401, 4022224774,
   264347078, 604807628, 770255983, 1249150122, 1555081692, 1996064986,
   2554220882, 2821834349, 2952996808, 3210313671, 3336571891, 3584528711,
   113926993, 338241895, 666307205, 773529912, 1294757372, 1396182291,
   1695183700, 1986661051, 2177026350, 2456956037, 2730485921, 2820302411,
   3259730800, 3345764771, 3516065817, 3600352804, 4094571909, 275423344,
   430227734, 506948616, 659060556, 883997877, 958139571, 1322822218,
   1537002063, 1747873779, 1955562222, 2024104815, 2227730452, 2361852424,
   2428436474, 2756734187, 3204031479, 3329325298]

def sha256H0 : List Nat :=
  [1779033703, 3144134277, 1013904242, 2773480762, 1359893119, 2600822924,
   528734635, 1541459225]

def mask32 (x : Nat) : Nat := x % 4294967296

def rotr32 (k x : Nat) : Nat := mask32 ((x >>> k) ||| (x <<< (32 - k)))

def shaSmallSigma0 (x : Nat) : Nat := rotr32 7 x ^^^ rotr32 18 x ^^^ (x >>> 3)

def shaSmallSigma1 (x : Nat) : Nat := rotr32 17 x ^^^ rotr32 19 x ^^^ (x >>> 10)

def shaBigSigma0 (x : Nat) : Nat := rotr32 2 x ^^^ rotr32 13 x ^^^ rotr32 22 x

def shaBigSigma1 (x : Nat) : Nat := rotr32 6 x ^^^ rotr32 11 x ^^^ rotr32 25 x

def shaCh (x y z : Nat) : Nat := (x &&& y) ^^^ ((x ^^^ 4294967295) &&& z)

def shaMaj (x y z : Nat) : Nat := (x &&& y) ^^^ (x &&& z) ^^^ (y &&& z)

/-- Message padding: 0x80, zeros to 56 mod 64, 8-byte big-endian bit length. -/
def shaPad (msg : List Nat) : List Nat :=
  let padLen := (55 + 64 - msg.length % 64) % 64 + 1
  msg ++ [128] ++ List.replicate (padLen - 1) 0 ++ beBytes 8 (8 * msg.length)

/-- Big-endian 32-bit words of a byte list. -/
def beWords (bytes : List Nat) : List Nat :=
  (List.range (bytes.length / 4)).map (fun i =>
    bytes.getD (4 * i) 0 <<< 24 ||| bytes.getD (4 * i + 1) 0 <<< 16
      ||| bytes.getD (4 * i + 2) 0 <<< 8 ||| bytes.getD (4 * i + 3) 0)

/-- Message schedule: 64 words from the 16 block words. -/
def shaSchedule : Nat → List Nat → List Nat
  | 0, w => w
  | t + 1, w =>
    shaSchedule t (w ++ [mask32 (shaSmallSigma1 (w.getD (w.length - 2) 0)
      + w.getD (w.length - 7) 0 + shaSmallSigma0 (w.getD (w.length - 15) 0)
      + w.getD (w.length - 16) 0)])

def shaRound (k w : Nat) : List Nat → List Nat
  | [a, b, c, d, e, f, g, h] =>
    let t1 := mask32 (h + shaBigSigma1 e + shaCh e f g + k + w)
    let t2 := mask32 (shaBigSigma0 a + shaMaj a b c)
    [mask32 (t1 + t2), a, b, c, mask32 (d + t1), e, f, g]
  | s => s

def shaCompress (hs : List Nat) (block : List Nat) : List Nat :=
  let w := shaSchedule 48 (beWords block)
  let final := (List.range 64).foldl
    (fun s t => shaRound (sha256K.getD t 0) (w.getD t 0) s) hs
  (List.range 8).map (fun i => mask32 (hs.getD i 0 + final.getD i 0))

def sha256 (msg : List Nat) : List Nat :=
  let padded := shaPad msg
  let hs := (List.range (padded.length / 64)).foldl
    (fun hs i => shaCompress hs ((padded.drop (64 * i)).take 64)) sha256H0
  hs.flatMap (beBytes 4)

/-! ## RIPEMD-160 (hash160 of the p2shwsh address branch) -/

def ripLeftIdx : List Nat :=
  [0, 1, 2, 3, 4, 5, 6, 7, 8, 9, 10, 11, 12, 13, 14, 15,
   7, 4, 13, 1, 10, 6, 15, 3, 12, 0, 9, 5, 2, 14, 11, 8,
   3, 10, 14, 4, 9, 15, 8, 1, 2, 7, 0, 6, 13, 11, 5, 12,
   1, 9, 11, 10, 0, 8, 12, 4, 13, 3, 7, 15, 14, 5, 6, 2,
   4, 0, 5, 9, 7, 12, 2, 10, 14, 1, 3, 8, 11, 6, 15, 13]

def ripRightIdx : List Nat :=
  [5, 14, 7, 0, 9, 2, 11, 4, 13, 6, 15, 8, 1, 10, 3, 12,
   6, 11, 3, 7, 0, 13, 5, 10, 14, 15, 8, 12, 4, 9, 1, 2,
   15, 5, 1, 3, 7, 14, 6, 9, 11, 8, 12, 2, 10, 0, 4, 13,
   8, 6, 4, 1, 3, 11, 15, 0, 5, 12, 2, 13, 9, 7, 10, 14,
   12, 15, 10, 4, 1, 5, 8, 7, 6, 2, 13, 14, 0, 3, 9, 11]

def ripLeftRot : List Nat :=
  [11, 14, 15, 12, 5, 8, 7, 9, 11, 13, 14, 15, 6, 7, 9, 8,
   7, 6, 8, 13, 11, 9, 7, 15, 7, 12, 15, 9, 11, 7, 13, 12,
   11, 13, 6, 7, 14, 9, 13, 15, 14, 8, 13, 6, 5, 12, 7, 5,
   11, 12, 14, 15, 14, 15, 9, 8, 9, 14, 5, 6, 8, 6, 5, 12,
   9, 15, 5, 11, 6, 8, 13, 12, 5, 12, 13, 14, 11, 8, 5, 6]

def ripRightRot : List Nat :=
  [8, 9, 9, 11, 13, 15, 15, 5, 7, 7, 8, 11, 14, 14, 12, 6,
   9, 13, 15, 7, 12, 8, 9, 11, 7, 7, 12, 7, 6, 15, 13, 11,
   9, 7, 15, 11, 8, 6, 6, 14, 12, 13, 5, 14, 13, 13, 7, 5,
   15, 5, 8, 11, 14, 14, 6, 14, 6, 9, 12, 9, 12, 5, 15, 8,
   8, 5, 12, 9, 12, 5, 14, 6, 8, 13, 6, 5, 15, 13, 11, 11]

def rol32 (k x : Nat) : Nat := mask32 ((x <<< k) ||| (x >>> (32 - k)))

def ripF (j x y z : Nat) : Nat :=
  if j < 16 then x ^^^ y ^^^ z
  else if j < 32 then (x &&& y) ||| ((x ^^^ 4294967295) &&& z)
  else if j < 48 then (x ||| (y ^^^ 4294967295)) ^^^ z
  else if j < 64 then (x &&& z) ||| (y &&& (z ^^^ 4294967295))
  else x ^^^ (y ||| (z ^^^ 4294967295))

def ripKLeft (j : Nat) : Nat :=
  if j < 16 then 0 else if j < 32 then 0x5A827999 else if j < 48 then 0x6ED9EBA1
  else if j < 64 then 0x8F1BBCDC else 0xA953FD4E

def ripKRight (j : Nat) : Nat :=
  if j < 16 then 0x50A28BE6 else if j < 32 then 0x5C4DD124 else if j < 48 then 0x6D703EF3
  else if j < 64 then 0x7A6D76E9 else 0

/-- Little-endian 32-bit words of a byte list. -/
def leWords (bytes : List Nat) : List Nat :=
  (List.range (bytes.length / 4)).map (fun i =>
    bytes.getD (4 * i) 0 ||| bytes.getD (4 * i + 1) 0 <<< 8
      ||| bytes.getD (4 * i + 2) 0 <<< 16 ||| bytes.getD (4 * i + 3) 0 <<< 24)

/-- One RIPEMD-160 pipeline step on state [a, b, c, d, e]; `fj` selects the
round function (j on the left pipeline, 79 - j on the right one). -/
def ripStep (x k rot fj : Nat) : List Nat → List Nat
  | [a, b, c, d, e] =>
    let t := mask32 (rol32 rot (mask32 (a + ripF fj b c d + x + k)) + e)
    [e, t, b, rol32 10 c, d]
  | s => s

def ripLine (idx rots : List Nat) (k : Nat → Nat) (fsel : Nat → Nat) (ws : List Nat)
    (init : List Nat) : List Nat :=
  (List.range 80).foldl
    (fun s j => ripStep (ws.getD (idx.getD j 0) 0) (k j) (rots.getD j 0) (fsel j) s) init

def ripH0 : List Nat := [0x67452301, 0xEFCDAB89, 0x98BADCFE, 0x10325476, 0xC3D2E1F0]

def ripPad (msg : List Nat) : List Nat :=
  let padLen := (55 + 64 - msg.length % 64) % 64 + 1
  msg ++ [128] ++ List.replicate (padLen - 1) 0
    ++ (beBytes 8 (8 * msg.length)).reverse

def ripCompress (hs : List Nat) (block : List Nat) : List Nat :=
  let ws := leWords block
  let l := ripLine ripLeftIdx ripLeftRot ripKLeft (fun j => j) ws hs
  let r := ripLine ripRightIdx ripRightRot ripKRight (fun j => 79 - j) ws hs
  [mask32 (hs.getD 1 0 + l.getD 2 0 + r.getD 3 0),
   mask32 (hs.getD 2 0 + l.getD 3 0 + r.getD 4 0),
   mask32 (hs.getD 3 0 + l.getD 4 0 + r.getD 0 0),
   mask32 (hs.getD 4 0 + l.getD 0 0 + r.getD 1 0),
   mask32 (hs.getD 0 0 + l.getD 1 0 + r.getD 2 0)]

def ripemd160 (msg : List Nat) : List Nat :=
  let padded := ripPad msg
  let hs := (List.range (padded.length / 64)).foldl
    (fun hs i => ripCompress hs ((padded.drop (64 * i)).take 64)) ripH0
  hs.flatMap (fun w => (beBytes 4 w).reverse)

def hash160 (msg : List Nat) : List Nat := ripemd160 (sha256 msg)

/-! ## Address derivation and rendering (to_address, Address display)

Confidential segwit addresses are blech32-encoded (hrp from the parameter
set, the data part being the witness version then the 5-bit regrouping of
the 33 blinding public key bytes followed by the witness program);
confidential legacy addresses are base58check with the blinded prefix
byte. -/

def address_params (network : BitcoinNetwork) : AddressParams :=
  match network with
  | BitcoinNetwork.Liquid => paramsLiquid
  | _ => paramsLiquidTestnet

/-- to_address: Submarine wraps the p2wsh script pubkey in a p2sh hash
(p2shwsh), ReverseSubmarine is native p2wsh; both are made confidential
with the public key of the swap blinding key. -/
def to_address (s : LBtcSwapScript) : EAddress :=
  let script := to_script s
  let params := address_params s.network
  match s.swap_type with
  | SwapType.Submarine =>
    { params := params,
      payload := AddressPayload.scriptHash (hash160 ([0] ++ push_slice (sha256 script))),
      blinding_pubkey := some (publicKeyCompressed s.blinding_key) }
  | SwapType.ReverseSubmarine =>
    { params := params,
      payload := AddressPayload.witnessProgram 0 (sha256 script),
      blinding_pubkey := some (publicKeyCompressed s.blinding_key) }

def base32Charset : String := "qpzry9x8gf2tvdw0s3jn54khce6mua7l"

def base32Char (n : Nat) : Char := base32Charset.toList.getD n 'q'

def hrpExpand (hrp : String) : List Nat :=
  hrp.toList.map (fun c => c.toNat >>> 5) ++ [0] ++ hrp.toList.map (fun c => c.toNat &&& 31)

/-- Bytes to bits, most significant first. -/
def bytesToBits (bytes : List Nat) : List Nat :=
  bytes.flatMap (fun b => (List.range 8).map (fun i => (b >>> (7 - i)) &&& 1))

/-- Regroup a bit list into 5-bit values, zero-padding the final group. -/
def regroup5 (bits : List Nat) : List Nat :=
  (List.range ((bits.length + 4) / 5)).map (fun i =>
    (List.range 5).foldl (fun acc j => 2 * acc + bits.getD (5 * i + j) 0) 0)

def bech32Gen : List Nat := [0x3b6a57b2, 0x26508e6d, 0x1ea119fa, 0x3d4233dd, 0x2a1462b3]

def bech32PolymodStep (chk v : Nat) : Nat :=
  let top := chk >>> 25
  let chk2 := ((chk &&& 0x1ffffff) <<< 5) ^^^ v
  (List.range 5).foldl (fun c i => if (top >>> i) &&& 1 = 1 then c ^^^ bech32Gen.getD i 0 else c) chk2

def bech32Polymod (values : List Nat) : Nat := values.foldl bech32PolymodStep 1

def bech32Encode (hrp : String) (data : List Nat) (const : Nat) : String :=
  let pm := bech32Polymod (hrpExpand hrp ++ data ++ List.replicate 6 0) ^^^ const
  let checksum := (List.range 6).map (fun i => (pm >>> (5 * (5 - i))) &&& 31)
  hrp ++ "1" ++ String.mk ((data ++ checksum).map base32Char)

def blech32Gen : List Nat :=
  [0x7d52fba40bd886, 0x5e8dbf1a03950c, 0x1c3a3c74072a18, 0x385d72fa0e5139, 0x7093e5a608865b]

def blech32PolymodStep (chk v : Nat) : Nat :=
  let top := chk >>> 55
  let chk2 := ((chk &&& 0x7fffffffffffff) <<< 5) ^^^ v
  (List.range 5).foldl (fun c i => if (top >>> i) &&& 1 = 1 then c ^^^ blech32Gen.getD i 0 else c) chk2

def blech32Polymod (values : List Nat) : Nat := values.foldl blech32PolymodStep 1

def blech32Encode (hrp : String) (data : List Nat) (const : Nat) : String :=
  let pm := blech32Polymod (hrpExpand hrp ++ data ++ List.replicate 12 0) ^^^ const
  let checksum := (List.range 12).map (fun i => (pm >>> (5 * (11 - i))) &&& 31)
  hrp ++ "1" ++ String.mk ((data ++ checksum).map base32Char)

def base58Alphabet : String := "123456789ABCDEFGHJKLMNPQRSTUVWXYZabcdefghijkmnopqrstuvwxyz"

def base58DigitsGo : Nat → Nat → List Nat
  | 0, _ => []
  | _ + 1, 0 => []
  | f + 1, n => n % 58 :: base58DigitsGo f (n / 58)

/-- Big-endian value of a byte list. -/
def beValue (bytes : List Nat) : Nat := bytes.foldl (fun acc b => 256 * acc + b) 0

def base58Encode (payload : List Nat) : String :=
  let zeros := (payload.takeWhile (fun b => b = 0)).length
  let digits := (base58DigitsGo 200 (beValue payload)).reverse
  String.mk (List.replicate zeros '1' ++ digits.map (fun d => base58Alphabet.toList.getD d '1'))

def base58Check (payload : List Nat) : String :=
  base58Encode (payload ++ (sha256 (sha256 payload)).take 4)

def blech32mConst : Nat := 0x455972a3350f7a1

def bech32mConst : Nat := 0x2bc830a3

/-- Display form of an elements address (elements Address fmt). -/
def addressToString (a : EAddress) : String :=
  match a.payload, a.blinding_pubkey with
  | AddressPayload.pubkeyHash h, none => base58Check (a.params.p2pkhByte :: h)
  | AddressPayload.pubkeyHash h, some bp =>
    base58Check (a.params.blindedByte :: a.params.p2pkhByte :: (bp ++ h))
  | AddressPayload.scriptHash h, none => base58Check (a.params.p2shByte :: h)
  | AddressPayload.scriptHash h, some bp =>
    base58Check (a.params.blindedByte :: a.params.p2shByte :: (bp ++ h))
  | AddressPayload.witnessProgram v prog, none =>
    bech32Encode a.params.bechHrp (v :: regroup5 (bytesToBits prog))
      (if v = 0 then 1 else bech32mConst)
  | AddressPayload.witnessProgram v prog, some bp =>
    blech32Encode a.params.blechHrp (v :: regroup5 (bytesToBits (bp ++ prog)))
      (if v = 0 then 1 else blech32mConst)

/-! ## Instruction rendering (serialization facts used by the round-trip
proof) -/

def renderInstr : Instr → List Nat
  | Instr.op b => [b]
  | Instr.pushBytes d => d.length :: d
  | Instr.err => []

def renderInstrs (l : List Instr) : List Nat := l.flatMap renderInstr

/-- Well-formed rendered instructions: a direct push of at most 75 bytes, or
an ordinary opcode above the PUSHDATA range. -/
def InstrWF : Instr → Prop
  | Instr.op b => 78 < b
  | Instr.pushBytes d => d.length ≤ 75
  | Instr.err => False

/-! ## Concrete inputs used by the theorems -/

/-- End-to-end vector: the redeem script of the repository test. -/
def c6hex : String :=
  "8201208763a9142bdd03d431251598f46a625f1d3abfcd7f491535882102ccbab5f97c89afb97d814831c5355ef5ba96a18c9dcd1b5c8cfd42c697bfe53c677503715912b1752103fced00385bd14b174a571d88b4b6aced2cb1d532237c29c4ec61338fbb7eff4068ac"

def c6bytes : List Nat := (hexDecode c6hex).getD []

/-- Blinding secret key of the end-to-end vector. -/
def c6BlindingKey : Nat :=
  0x02702ae71ec11a895f6255e26395983585a0d791ea1eb83d1aa54a66056469da

/-- Claim secret key of the end-to-end vector (my_key_pair). -/
def c6ClaimSecret : Nat :=
  0xaecbc2bddfcd3fa6953d257a9f369dc20cdc66f2605c73efb4c91b90703506b6

def c6ExpectedAddress : String :=
  "tlq1qq0gnj2my5tp8r77srvvdmwfrtr8va9mgz9e8ja0rzk75jvsanjvgz5sfvl093l5a7xztrtzhyhfmfyr2exdxtpw7cehfgtzgn62zdzcsgrz8c4pjfvtj"

def fallbackScript : LBtcSwapScript :=
  { network := BitcoinNetwork.Liquid, electrum_url := "", swap_type := SwapType.Submarine,
    hashlock := [], reciever_pubkey := [], timelock := 0, sender_pubkey := [],
    blinding_key := 0 }

/-- The script the end-to-end vector decodes to (fallback never taken, as
the decode theorem shows). -/
def c6Decoded : LBtcSwapScript :=
  match reverse_from_str BitcoinNetwork.LiquidTestnet "url" c6bytes c6BlindingKey with
  | DecodeResult.ok s => s
  | _ => fallbackScript

/-- A valid 20-byte hashlock (the one of the end-to-end vector). -/
def hash20 : List Nat :=
  [43, 221, 3, 212, 49, 37, 21, 152, 244, 106, 98, 95, 29, 58, 191, 205, 127, 73, 21, 53]

/-- A valid compressed public key (the receiver key of the vector). -/
def keyA : List Nat :=
  [2, 204, 186, 181, 249, 124, 137, 175, 185, 125, 129, 72, 49, 197, 53, 94,
   245, 186, 150, 161, 140, 157, 205, 27, 92, 140, 253, 66, 198, 151, 191, 229, 60]

/-- A second, distinct valid compressed public key (the sender key of the
vector). -/
def keyB : List Nat :=
  [3, 252, 237, 0, 56, 91, 209, 75, 23, 74, 87, 29, 136, 180, 182, 172, 237,
   44, 177, 213, 50, 35, 124, 41, 196, 236, 97, 51, 143, 187, 126, 255, 64]

/-- Submarine script with a valid field set except that the timelock is 1:
encoding pushes it as the single opcode OP_PUSHNUM_1, which the decoder
never assigns, so the round trip fails. -/
def cexScript : LBtcSwapScript :=
  { network := BitcoinNetwork.Liquid, electrum_url := "", swap_type := SwapType.Submarine,
    hashlock := hash20, reciever_pubkey := keyA, timelock := 1, sender_pubkey := keyB,
    blinding_key := 1 }

/-- Submarine redeem script whose only flaw is a missing receiver key (no
push between IF and ELSE); hashlock, timelock and sender key all decode. -/
def c2BadScript : List Nat :=
  [OP_HASH160] ++ push_slice hash20 ++ [OP_EQUAL, OP_IF, OP_ELSE] ++ push_int 1202545
    ++ [OP_CLTV, OP_DROP] ++ push_key keyB ++ [OP_ENDIF, OP_CHECKSIG]

/-- Reverse-submarine redeem script with a missing receiver key (no push
after EQUALVERIFY). -/
def c2BadScriptReverse : List Nat :=
  [OP_SIZE] ++ push_slice [32] ++ [OP_EQUAL, OP_IF, OP_HASH160] ++ push_slice hash20
    ++ [OP_EQUALVERIFY, OP_ELSE, OP_DROP] ++ push_int 1202545 ++ [OP_CLTV, OP_DROP]
    ++ push_key keyB ++ [OP_ENDIF, OP_CHECKSIG]

/-- Submarine redeem script in which a 33-byte push directly follows
OP_ELSE, driving the little-endian decode into a shift overflow. -/
def c9BadScript : List Nat :=
  [OP_HASH160] ++ push_slice hash20 ++ [OP_EQUAL, OP_IF] ++ push_key keyA
    ++ [OP_ELSE] ++ push_key keyB ++ [OP_CLTV, OP_DROP] ++ push_key keyB
    ++ [OP_ENDIF, OP_CHECKSIG]

/-- Concrete crypto environment for closed evaluations. -/
def env0 : CryptoEnv :=
  { outAbf := 3, noncePub := 4, surjProofId := 5, rangeproofId := 6,
    sighash := fun _ _ _ => 0, signDer := fun _ _ => [48] }

def addr0 : EAddress :=
  { params := paramsLiquidTestnet,
    payload := AddressPayload.witnessProgram 0 (List.replicate 32 0),
    blinding_pubkey := some (2 :: List.replicate 32 9) }

def secrets0 : TxOutSecrets :=
  { asset := 7, asset_bf := 11, value_bf := 13, value := 1000 }

def pre0 : Preimage := { bytes := some (List.replicate 32 1) }

/-- Claim-kind swap transaction with a located utxo worth 1000 and a fee of
2000: the failing input of the underflow claim. -/
def c1Tx : LBtcSwapTx :=
  { kind := SwapTxKind.Claim, swap_script := cexScript, output_address := addr0,
    absolute_fees := 2000, utxo := some { txid := 1, vout := 0 },
    utxo_value := some 1000, txout_secrets := some secrets0 }

/-- Claim-kind swap transaction with a located utxo worth 1000 and a fee of
250: a well-formed input on which signing succeeds. -/
def cOkTx : LBtcSwapTx :=
  { kind := SwapTxKind.Claim, swap_script := cexScript, output_address := addr0,
    absolute_fees := 250, utxo := some { txid := 1, vout := 0 },
    utxo_value := some 1000, txout_secrets := some secrets0 }

/-- Refund-kind swap transaction used by witnesses. -/
def cRefundTx : LBtcSwapTx :=
  { kind := SwapTxKind.Refund, swap_script := cexScript, output_address := addr0,
    absolute_fees := 250, utxo := some { txid := 1, vout := 0 },
    utxo_value := some 1000, txout_secrets := some secrets0 }

/-- Unwrapped claim parts of the well-formed concrete state cOkTx. -/
def claimParts0 : ClaimParts :=
  { outpoint := { txid := 1, vout := 0 }, secrets := secrets0, utxoValue := 1000,
    outputValue := 750, blindingPub := 2 :: List.replicate 32 9,
    preimageBytes := List.replicate 32 1 }

/-- The signed claim transaction built from cOkTx. -/
def signedTx0 : Transaction := claim_signed_tx env0 cOkTx 1 claimParts0

/-! # Theorems -/

/-! ## Helper lemmas -/

theorem lor_shiftLeft_eq_add {a : Nat} (b k : Nat) (ha : a < 2 ^ k) :
    a ||| (b <<< k) = a + b * 2 ^ k := by
  apply Nat.eq_of_testBit_eq
  intro i
  rw [Nat.testBit_lor, Nat.testBit_shiftLeft, Nat.add_comm a (b * 2 ^ k),
    Nat.mul_comm b (2 ^ k), Nat.testBit_mul_pow_two_add b ha i]
  rcases Nat.lt_or_ge i k with hik | hik
  · simp [hik, Nat.not_le.mpr hik]
  · simp only [if_neg (Nat.not_lt.mpr hik), ge_iff_le, hik, decide_eq_true_eq]
    have hz : a.testBit i = false :=
      Nat.testBit_lt_two_pow (Nat.lt_of_lt_of_le ha (Nat.pow_le_pow_right (by omega) hik))
    simp [hz]

theorem fetch_utxo_kind (self : LBtcSwapTx) (located : Option (OutPoint × Nat × TxOutSecrets)) :
    (fetch_utxo self located).kind = self.kind := by
  cases located with
  | none => rfl
  | some l => rfl

theorem bytes_to_u32_le_go_spec (bs : List Nat) :
    ∀ i acc, (∀ b ∈ bs, b < 256) → acc < 2 ^ (8 * i) → i + bs.length ≤ 4 →
      bytes_to_u32_le_go i acc bs = some (acc + 2 ^ (8 * i) * leValue bs) := by
  induction bs with
  | nil => intro i acc _ _ _; simp [bytes_to_u32_le_go, leValue]
  | cons b t ih =>
    intro i acc hb hacc hlen
    have hi : ¬ 32 ≤ 8 * i := by simp at hlen; omega
    rw [bytes_to_u32_le_go, if_neg hi]
    have hb256 : b < 256 := hb b (by simp)
    have hstep : acc ||| (b <<< (8 * i)) = acc + b * 2 ^ (8 * i) :=
      lor_shiftLeft_eq_add b (8 * i) hacc
    have hlt : acc + b * 2 ^ (8 * i) < 2 ^ (8 * (i + 1)) := by
      have h1 : acc + b * 2 ^ (8 * i) < 2 ^ (8 * i) + 255 * 2 ^ (8 * i) := by
        have : b * 2 ^ (8 * i) ≤ 255 * 2 ^ (8 * i) :=
          Nat.mul_le_mul_right _ (by omega)
        omega
      have h2 : 2 ^ (8 * i) + 255 * 2 ^ (8 * i) = 2 ^ (8 * (i + 1)) := by
        have : 8 * (i + 1) = 8 * i + 8 := by omega
        rw [this, Nat.pow_add]
        ring
      omega
    rw [hstep, ih (i + 1) (acc + b * 2 ^ (8 * i)) (fun x hx => hb x (by simp [hx])) hlt
      (by simp at hlen ⊢; omega)]
    have hpow : 2 ^ (8 * (i + 1)) = 2 ^ (8 * i) * 256 := by
      have h8 : 8 * (i + 1) = 8 * i + 8 := by omega
      rw [h8, Nat.pow_add]
    rw [hpow]
    congr 1
    simp [leValue]
    ring

theorem bytes_to_u32_le_go_overflow (bs : List Nat) :
    ∀ i acc, 4 - i < bs.length → bytes_to_u32_le_go i acc bs = none := by
  induction bs with
  | nil => intro i acc h; simp at h
  | cons b t ih =>
    intro i acc h
    simp at h
    by_cases hi : 32 ≤ 8 * i
    · rw [bytes_to_u32_le_go, if_pos hi]
    · rw [bytes_to_u32_le_go, if_neg hi]
      exact ih (i + 1) _ (by omega)

theorem parseInstrsF_nil (fuel : Nat) : parseInstrsF fuel [] = [] := by
  cases fuel with
  | zero => rfl
  | succ f => rfl

theorem parseInstrsF_op (f b : Nat) (rest : List Nat) (hb : 78 < b) :
    parseInstrsF (f + 1) (b :: rest) = Instr.op b :: parseInstrsF f rest := by
  rw [parseInstrsF.eq_def]
  simp only []
  rw [if_neg (by omega : ¬ b ≤ 75), if_neg (by omega : ¬ b = 76),
    if_neg (by omega : ¬ b = 77), if_neg (by omega : ¬ b = 78)]

theorem parseInstrsF_push (f : Nat) (d rest : List Nat) (hd : d.length ≤ 75) :
    parseInstrsF (f + 1) (d.length :: (d ++ rest)) = Instr.pushBytes d :: parseInstrsF f rest := by
  rw [parseInstrsF.eq_def]
  simp only []
  rw [if_pos hd, if_neg (by simp : ¬ (d ++ rest).length < d.length),
    List.take_left, List.drop_left]

/-- Parsing a well-formed rendered instruction list (with fuel at least the
instruction count) recovers the list. -/
theorem parse_render (l : List Instr) (wf : ∀ i ∈ l, InstrWF i) :
    ∀ fuel, l.length ≤ fuel → parseInstrsF fuel (renderInstrs l) = l := by
  induction l with
  | nil => intro fuel _; simp [renderInstrs]; exact parseInstrsF_nil fuel
  | cons i rest ih =>
    intro fuel hfuel
    have hwf : InstrWF i := wf i (by simp)
    have hwfr : ∀ j ∈ rest, InstrWF j := fun j hj => wf j (by simp [hj])
    cases fuel with
    | zero => simp at hfuel
    | succ f =>
      have hfr : rest.length ≤ f := by simp at hfuel; omega
      cases i with
      | err => exact absurd hwf (by simp [InstrWF])
      | op b =>
        show parseInstrsF (f + 1) (b :: renderInstrs rest) = Instr.op b :: rest
        rw [parseInstrsF_op f b _ hwf, ih hwfr f hfr]
      | pushBytes d =>
        show parseInstrsF (f + 1) (d.length :: (d ++ renderInstrs rest))
          = Instr.pushBytes d :: rest
        rw [parseInstrsF_push f d _ hwf, ih hwfr f hfr]

/-- Each well-formed instruction renders to at least one byte, so the byte
length of a rendered list bounds the instruction count. -/
theorem renderInstrs_length (l : List Instr) (wf : ∀ i ∈ l, InstrWF i) :
    l.length ≤ (renderInstrs l).length := by
  induction l with
  | nil => simp [renderInstrs]
  | cons i rest ih =>
    have hwfr : ∀ j ∈ rest, InstrWF j := fun j hj => wf j (by simp [hj])
    have hr := ih hwfr
    cases i with
    | err => exact absurd (wf Instr.err (by simp)) (by simp [InstrWF])
    | op b => simp [renderInstrs, renderInstr] at hr ⊢; omega
    | pushBytes d => simp [renderInstrs, renderInstr] at hr ⊢; omega

theorem parseInstrs_render (l : List Instr) (wf : ∀ i ∈ l, InstrWF i) :
    parseInstrs (renderInstrs l) = l :=
  parse_render l wf (renderInstrs l).length (renderInstrs_length l wf)


theorem leBytesF_succ (f : Nat) {n : Nat} (h : n ≠ 0) :
    leBytesF (f + 1) n = n % 256 :: leBytesF f (n / 256) := by
  cases n with
  | zero => exact absurd rfl h
  | succ m => rfl

theorem leBytesF_zero (f : Nat) : leBytesF f 0 = [] := by
  cases f with
  | zero => rfl
  | succ g => rfl

theorem build_scriptint_three {n : Nat} (h1 : 32768 ≤ n) (h2 : n ≤ 8388607) :
    build_scriptint_pos n = [n % 256, n / 256 % 256, n / 65536] := by
  have hn : n ≠ 0 := by omega
  have hq : n / 256 ≠ 0 := by omega
  have hqq : n / 256 / 256 = n / 65536 := by
    rw [Nat.div_div_eq_div_mul]
  unfold build_scriptint_pos
  rw [leBytesF_succ 8 hn, leBytesF_succ 7 hq, hqq]
  by_cases hc : n < 65536
  · have hz : n / 65536 = 0 := by omega
    rw [hz, leBytesF_zero]
    have hmod : n / 256 % 256 = n / 256 := by omega
    have hge : 128 ≤ n / 256 := by omega
    simp [hmod, hge, hz]
  · have hz : n / 65536 ≠ 0 := by omega
    rw [leBytesF_succ 6 hz]
    have h3 : n / 65536 / 256 = 0 := by
      rw [Nat.div_div_eq_div_mul]
      omega
    rw [h3, leBytesF_zero]
    have hm : n / 65536 % 256 = n / 65536 := by omega
    have hlt : ¬ 128 ≤ n / 65536 := by omega
    simp [hm, hlt]

theorem push_int_three {n : Nat} (h1 : 32768 ≤ n) (h2 : n ≤ 8388607) :
    push_int n = [3, n % 256, n / 256 % 256, n / 65536] := by
  unfold push_int
  rw [if_neg (by omega), if_neg (by omega), build_scriptint_three h1 h2]
  rfl

theorem bytes_to_u32_three {n : Nat} (h1 : 32768 ≤ n) (h2 : n ≤ 8388607) :
    bytes_to_u32_little_endian [n % 256, n / 256 % 256, n / 65536] = some n := by
  unfold bytes_to_u32_little_endian
  rw [bytes_to_u32_le_go_spec [n % 256, n / 256 % 256, n / 65536] 0 0
    (by intro b hb; simp at hb; rcases hb with h | h | h <;> omega)
    (by norm_num) (by simp)]
  simp [leValue]
  omega

theorem submarine_scan (h r snd tlb : List Nat) (tl : Nat)
    (hb : bytes_to_u32_little_endian tlb = some tl) :
    List.foldlM submarineStep initScanState
      [Instr.op OP_HASH160, Instr.pushBytes h, Instr.op OP_EQUAL, Instr.op OP_IF,
       Instr.pushBytes r, Instr.op OP_ELSE, Instr.pushBytes tlb, Instr.op OP_CLTV,
       Instr.op OP_DROP, Instr.pushBytes snd, Instr.op OP_ENDIF, Instr.op OP_CHECKSIG]
      = some { lastOp := OP_CHECKSIG, hashlock := some h, reciever_pubkey := some r,
               timelock := some tl, sender_pubkey := some snd } := by
  simp [List.foldlM, submarineStep, initScanState, OP_HASH160, OP_EQUAL, OP_IF,
    OP_ELSE, OP_CLTV, OP_DROP, OP_ENDIF, OP_CHECKSIG, OP_0NOTEQUAL, hb]

theorem reverse_scan (h r snd tlb : List Nat) (tl : Nat)
    (hb : bytes_to_u32_little_endian tlb = some tl) (hlen : tlb.length = 3)
    (hsnd : snd.length ≠ 3) :
    List.foldlM reverseStep initScanState
      [Instr.op OP_SIZE, Instr.pushBytes [32], Instr.op OP_EQUAL, Instr.op OP_IF,
       Instr.op OP_HASH160, Instr.pushBytes h, Instr.op OP_EQUALVERIFY, Instr.pushBytes r,
       Instr.op OP_ELSE, Instr.op OP_DROP, Instr.pushBytes tlb, Instr.op OP_CLTV,
       Instr.op OP_DROP, Instr.pushBytes snd, Instr.op OP_ENDIF, Instr.op OP_CHECKSIG]
      = some { lastOp := OP_CHECKSIG, hashlock := some h, reciever_pubkey := some r,
               timelock := some tl, sender_pubkey := some snd } := by
  simp [List.foldlM, reverseStep, initScanState, OP_SIZE, OP_HASH160, OP_EQUAL, OP_IF,
    OP_EQUALVERIFY, OP_ELSE, OP_CLTV, OP_DROP, OP_ENDIF, OP_CHECKSIG, OP_0NOTEQUAL,
    hb, hlen, hsnd]

theorem to_script_submarine_render (s : LBtcSwapScript)
    (hh : s.hashlock.length ≤ 75) (hr : s.reciever_pubkey.length ≤ 75)
    (hs : s.sender_pubkey.length ≤ 75)
    (h1 : 32768 ≤ s.timelock) (h2 : s.timelock ≤ 8388607) :
    to_script_submarine s = renderInstrs
      [Instr.op OP_HASH160, Instr.pushBytes s.hashlock, Instr.op OP_EQUAL, Instr.op OP_IF,
       Instr.pushBytes s.reciever_pubkey, Instr.op OP_ELSE,
       Instr.pushBytes [s.timelock % 256, s.timelock / 256 % 256, s.timelock / 65536],
       Instr.op OP_CLTV, Instr.op OP_DROP, Instr.pushBytes s.sender_pubkey,
       Instr.op OP_ENDIF, Instr.op OP_CHECKSIG] := by
  have hh76 : s.hashlock.length < 76 := by omega
  have hr76 : s.reciever_pubkey.length < 76 := by omega
  have hs76 : s.sender_pubkey.length < 76 := by omega
  simp [to_script_submarine, renderInstrs, renderInstr, push_key, push_slice,
    push_int_three h1 h2, hh76, hr76, hs76]

theorem submarine_roundtrip (s : LBtcSwapScript)
    (hty : s.swap_type = SwapType.Submarine)
    (hh : s.hashlock.length ≤ 75) (hr : s.reciever_pubkey.length ≤ 75)
    (hs : s.sender_pubkey.length ≤ 75)
    (h1 : 32768 ≤ s.timelock) (h2 : s.timelock ≤ 8388607) :
    submarine_from_str s.network s.electrum_url (to_script s) s.blinding_key
      = DecodeResult.ok s := by
  have hscript : to_script s = to_script_submarine s := by
    unfold to_script; rw [hty]
  rw [hscript, to_script_submarine_render s hh hr hs h1 h2]
  unfold submarine_from_str
  rw [parseInstrs_render _ ?wf]
  case wf =>
    intro i hi
    simp at hi
    rcases hi with rfl | rfl | rfl | rfl | rfl | rfl | rfl | rfl | rfl | rfl | rfl | rfl
      <;> simp [InstrWF, OP_HASH160, OP_EQUAL, OP_IF, OP_ELSE, OP_CLTV, OP_DROP,
           OP_ENDIF, OP_CHECKSIG] <;> omega
  rw [submarine_scan s.hashlock s.reciever_pubkey s.sender_pubkey _ s.timelock
    (bytes_to_u32_three h1 h2)]
  unfold finishDecode
  simp [hty.symm]

theorem to_script_reverse_render (s : LBtcSwapScript)
    (hh : s.hashlock.length ≤ 75) (hr : s.reciever_pubkey.length ≤ 75)
    (hs : s.sender_pubkey.length ≤ 75)
    (h1 : 32768 ≤ s.timelock) (h2 : s.timelock ≤ 8388607) :
    to_script_reverse s = renderInstrs
      [Instr.op OP_SIZE, Instr.pushBytes [32], Instr.op OP_EQUAL, Instr.op OP_IF,
       Instr.op OP_HASH160, Instr.pushBytes s.hashlock, Instr.op OP_EQUALVERIFY,
       Instr.pushBytes s.reciever_pubkey, Instr.op OP_ELSE, Instr.op OP_DROP,
       Instr.pushBytes [s.timelock % 256, s.timelock / 256 % 256, s.timelock / 65536],
       Instr.op OP_CLTV, Instr.op OP_DROP, Instr.pushBytes s.sender_pubkey,
       Instr.op OP_ENDIF, Instr.op OP_CHECKSIG] := by
  have hh76 : s.hashlock.length < 76 := by omega
  have hr76 : s.reciever_pubkey.length < 76 := by omega
  have hs76 : s.sender_pubkey.length < 76 := by omega
  simp [to_script_reverse, renderInstrs, renderInstr, push_key, push_slice,
    push_int_three h1 h2, hh76, hr76, hs76]

theorem reverse_roundtrip (s : LBtcSwapScript)
    (hty : s.swap_type = SwapType.ReverseSubmarine)
    (hh : s.hashlock.length ≤ 75) (hr : s.reciever_pubkey.length ≤ 75)
    (hs : s.sender_pubkey.length ≤ 75) (hs3 : s.sender_pubkey.length ≠ 3)
    (h1 : 32768 ≤ s.timelock) (h2 : s.timelock ≤ 8388607) :
    reverse_from_str s.network s.electrum_url (to_script s) s.blinding_key
      = DecodeResult.ok s := by
  have hscript : to_script s = to_script_reverse s := by
    unfold to_script; rw [hty]
  rw [hscript, to_script_reverse_render s hh hr hs h1 h2]
  unfold reverse_from_str
  rw [parseInstrs_render _ ?wf]
  case wf =>
    intro i hi
    simp at hi
    rcases hi with rfl | rfl | rfl | rfl | rfl | rfl | rfl | rfl | rfl | rfl | rfl | rfl
      | rfl | rfl | rfl | rfl
      <;> simp [InstrWF, OP_SIZE, OP_HASH160, OP_EQUAL, OP_IF, OP_EQUALVERIFY,
           OP_ELSE, OP_CLTV, OP_DROP, OP_ENDIF, OP_CHECKSIG] <;> omega
  rw [reverse_scan s.hashlock s.reciever_pubkey s.sender_pubkey _ s.timelock
    (bytes_to_u32_three h1 h2) (by simp) hs3]
  unfold finishDecode
  simp [hty.symm]


/-- Claim C1 (code-bug evidence): with a located utxo of value 1000 and an
absolute fee of 2000 the guard passes, and drain on the Claim-kind
transaction panics on the unsigned subtraction value - fee (modelled as
none) instead of failing with a Transaction error as the claim requires:
the source performs the subtraction unchecked. -/
theorem claim_underflow_panics :
    has_utxo c1Tx = true
    ∧ c1Tx.absolute_fees = 2000
    ∧ c1Tx.utxo_value = some 1000
    ∧ drain env0 none c1Tx 1 pre0 = none :=
  ⟨rfl, rfl, rfl, rfl⟩

/-- Claim C2 (code-bug evidence): on a script whose only missing field is
the receiver public key, both decoders pass their presence check (which
tests the sender key twice and the receiver key never) and panic on
`unwrap` instead of returning the Input error the claim requires. -/
theorem decode_missing_receiver_panics :
    submarine_from_str BitcoinNetwork.Liquid "" c2BadScript 1 = DecodeResult.panicked
    ∧ reverse_from_str BitcoinNetwork.Liquid "" c2BadScriptReverse 1
        = DecodeResult.panicked := by
  exact ⟨by decide, by decide⟩

/-- Claim C4: for every Refund-kind swap transaction, any located outcome,
any key pair and any preimage, drain yields an error of kind Transaction
and never a signed transaction. -/
theorem refund_drain_transaction_error (env : CryptoEnv)
    (located : Option (OutPoint × Nat × TxOutSecrets)) (self : LBtcSwapTx)
    (keys : Nat) (preimage : Preimage) (hk : self.kind = SwapTxKind.Refund) :
    ∃ e, drain env located self keys preimage = some (Except.error e)
      ∧ e.kind = ErrorKind.Transaction := by
  have hk2 : (fetch_utxo self located).kind = SwapTxKind.Refund :=
    (fetch_utxo_kind self located).trans hk
  unfold drain
  dsimp only
  rw [hk2]
  by_cases hu : has_utxo (fetch_utxo self located)
  · rw [if_neg (by simp [hu])]
    exact ⟨_, rfl, rfl⟩
  · rw [if_pos (by simp [hu])]
    exact ⟨_, rfl, rfl⟩

theorem refund_drain_transaction_error_witness :
    ∃ e, drain env0 none cRefundTx 1 pre0 = some (Except.error e)
      ∧ e.kind = ErrorKind.Transaction :=
  refund_drain_transaction_error env0 none cRefundTx 1 pre0 rfl

/-- Claim C10: a Claim transaction whose utxo was set only through
manual_utxo_update passes the has_utxo guard (which checks only outpoint
and value) with txout_secrets still unset, and drain then panics inside
sign_claim_tx (none) instead of returning an error. -/
theorem manual_utxo_guard_panics (script : LBtcSwapScript) (a : EAddress)
    (fees : Nat) (op : OutPoint) (v : Nat) (env : CryptoEnv) (keys : Nat)
    (preimage : Preimage) (t0 : LBtcSwapTx)
    (hnew : new_claim script (some a) fees = Except.ok t0) :
    has_utxo (manual_utxo_update t0 op v) = true
    ∧ (manual_utxo_update t0 op v).txout_secrets = none
    ∧ drain env none (manual_utxo_update t0 op v) keys preimage = none := by
  have ht0 : { kind := SwapTxKind.Claim, swap_script := script, output_address := a,
               absolute_fees := fees, utxo := none, utxo_value := none,
               txout_secrets := none : LBtcSwapTx } = t0 := by
    simpa [new_claim] using hnew
  subst ht0
  exact ⟨rfl, rfl, rfl⟩

theorem manual_utxo_guard_panics_witness :
    has_utxo (manual_utxo_update
      { kind := SwapTxKind.Claim, swap_script := cexScript, output_address := addr0,
        absolute_fees := 250, utxo := none, utxo_value := none,
        txout_secrets := none } { txid := 5, vout := 1 } 5000) = true
    ∧ (manual_utxo_update
        { kind := SwapTxKind.Claim, swap_script := cexScript, output_address := addr0,
          absolute_fees := 250, utxo := none, utxo_value := none,
          txout_secrets := none } { txid := 5, vout := 1 } 5000).txout_secrets = none
    ∧ drain env0 none (manual_utxo_update
        { kind := SwapTxKind.Claim, swap_script := cexScript, output_address := addr0,
          absolute_fees := 250, utxo := none, utxo_value := none,
          txout_secrets := none } { txid := 5, vout := 1 } 5000) 1 pre0 = none :=
  manual_utxo_guard_panics cexScript addr0 250 { txid := 5, vout := 1 } 5000 env0 1 pre0 _ rfl


/-- Claim C7: every constructed claim transaction has protocol version 2,
locktime equal to the swap script timelock, exactly one input spending the
located outpoint with maximal (final) sequence and empty unlock script, and
exactly two outputs in the order payment output then fee output. -/
theorem claim_tx_shape (env : CryptoEnv) (self : LBtcSwapTx) (keys : Nat)
    (preimage : Preimage) (tx : Transaction)
    (h : sign_claim_tx env self keys preimage = some tx) :
    tx.version = 2
    ∧ tx.lock_time = self.swap_script.timelock
    ∧ (∃ op w, self.utxo = some op
        ∧ tx.input = [{ previous_output := op, script_sig := [],
                        sequence := 4294967295, witness := w, is_pegin := false }])
    ∧ (∃ secrets pay, self.txout_secrets = some secrets
        ∧ tx.output = [pay, TxOut.new_fee self.absolute_fees secrets.asset]
        ∧ pay.script_pubkey = self.output_address.script_pubkey) := by
  unfold sign_claim_tx at h
  split at h
  next => exact absurd h (by simp)
  next op hop =>
  split at h
  next => exact absurd h (by simp)
  next secrets hsec =>
  split at h
  next => exact absurd h (by simp)
  next v hv =>
  split at h
  next => exact absurd h (by simp)
  next ov hov =>
  split at h
  next => exact absurd h (by simp)
  next bp hbp =>
  split at h
  next => exact absurd h (by simp)
  next pb hpb =>
  have htx := Option.some.inj h
  subst htx
  exact ⟨rfl, rfl, ⟨op, _, hop, rfl⟩, ⟨secrets, _, hsec, rfl, rfl⟩⟩


theorem claim_tx_shape_witness :
    signedTx0.version = 2
    ∧ signedTx0.lock_time = cOkTx.swap_script.timelock
    ∧ (∃ op w, cOkTx.utxo = some op
        ∧ signedTx0.input = [{ previous_output := op, script_sig := [],
                               sequence := 4294967295, witness := w, is_pegin := false }])
    ∧ (∃ secrets pay, cOkTx.txout_secrets = some secrets
        ∧ signedTx0.output = [pay, TxOut.new_fee cOkTx.absolute_fees secrets.asset]
        ∧ pay.script_pubkey = cOkTx.output_address.script_pubkey) :=
  claim_tx_shape env0 cOkTx 1 pre0 signedTx0 rfl

/-- Claim C8: the script witness stack of the single input of every signed
claim transaction is exactly four elements in order: an empty element, the
DER-serialized ECDSA signature with the sighash-type byte (All = 1)
appended, the preimage bytes, and the serialized redeem script. -/
theorem claim_witness_stack (env : CryptoEnv) (self : LBtcSwapTx) (keys : Nat)
    (preimage : Preimage) (tx : Transaction)
    (h : sign_claim_tx env self keys preimage = some tx) :
    ∃ cp : ClaimParts, self.utxo = some cp.outpoint
      ∧ self.txout_secrets = some cp.secrets
      ∧ preimage.bytes = some cp.preimageBytes
      ∧ tx.input = [claim_signed_txin env self keys cp]
      ∧ (claim_signed_txin env self keys cp).witness.script_witness
          = [[], env.signDer (claim_sighash env self cp) keys ++ [1],
             cp.preimageBytes, to_script self.swap_script] := by
  unfold sign_claim_tx at h
  split at h
  next => exact absurd h (by simp)
  next op hop =>
  split at h
  next => exact absurd h (by simp)
  next secrets hsec =>
  split at h
  next => exact absurd h (by simp)
  next v hv =>
  split at h
  next => exact absurd h (by simp)
  next ov hov =>
  split at h
  next => exact absurd h (by simp)
  next bp hbp =>
  split at h
  next => exact absurd h (by simp)
  next pb hpb =>
  have htx := Option.some.inj h
  subst htx
  exact ⟨{ outpoint := op, secrets := secrets, utxoValue := v, outputValue := ov,
           blindingPub := bp, preimageBytes := pb },
    hop, hsec, hpb, rfl, rfl⟩

theorem claim_witness_stack_witness :
    ∃ cp : ClaimParts, cOkTx.utxo = some cp.outpoint
      ∧ cOkTx.txout_secrets = some cp.secrets
      ∧ pre0.bytes = some cp.preimageBytes
      ∧ signedTx0.input = [claim_signed_txin env0 cOkTx 1 cp]
      ∧ (claim_signed_txin env0 cOkTx 1 cp).witness.script_witness
          = [[], env0.signDer (claim_sighash env0 cOkTx cp) 1 ++ [1],
             cp.preimageBytes, to_script cOkTx.swap_script] :=
  claim_witness_stack env0 cOkTx 1 pre0 signedTx0 rfl


theorem secpN_pos : (0 : Int) < (secpN : Int) := by
  norm_num [secpN]

/-- The balancing blinding factor satisfies the Pedersen balance equation:
the last output term plus the returned factor plus the fee terms (zero
factors) equals the input term, in the scalar field. -/
theorem vbfLast_balance (lastValue lastAbf sv sabf svbf f : Nat) :
    ((lastValue : Int) * lastAbf
      + (vbfLast lastValue lastAbf [(sv, sabf, svbf)] [(f, 0, 0)] : Nat)
      + ((f : Int) * 0 + 0)) % secpN
    = ((sv : Int) * sabf + svbf) % secpN := by
  unfold vbfLast
  simp only [List.map_cons, List.map_nil, List.sum_cons, List.sum_nil, Nat.cast_zero]
  have hnn : (0 : Int) ≤ (((sv : Int) * sabf + svbf + 0)
      - ((f : Int) * 0 + 0 + 0) - (lastValue : Int) * lastAbf) % secpN :=
    Int.emod_nonneg _ (by norm_num [secpN])
  rw [Int.toNat_of_nonneg hnn]
  have e1 : ((lastValue : Int) * lastAbf
      + (((sv : Int) * sabf + svbf + 0) - ((f : Int) * 0 + 0 + 0)
          - (lastValue : Int) * lastAbf) % secpN + ((f : Int) * 0 + 0)) % secpN
      = ((lastValue : Int) * lastAbf
        + (((sv : Int) * sabf + svbf + 0) - ((f : Int) * 0 + 0 + 0)
            - (lastValue : Int) * lastAbf) + ((f : Int) * 0 + 0)) % secpN := by
    conv =>
      lhs
      rw [Int.add_emod, Int.add_emod ((lastValue : Int) * lastAbf),
        Int.emod_emod_of_dvd _ dvd_rfl]
    conv =>
      rhs
      rw [Int.add_emod, Int.add_emod ((lastValue : Int) * lastAbf)]
  rw [e1]
  ring_nf


/-- Claim C5: every constructed claim transaction balances exactly:
payment output value plus fee equals the located utxo value, the fee output
is the explicit unblinded fee output, and the balance-equation call enters
the fee with zero asset- and value-blinding factors, so that the last
output term plus the returned factor plus the zero fee terms equals the
input term in the scalar field. -/
theorem claim_balance (env : CryptoEnv) (self : LBtcSwapTx) (keys : Nat)
    (preimage : Preimage) (tx : Transaction) (v : Nat)
    (h : sign_claim_tx env self keys preimage = some tx)
    (hv : self.utxo_value = some v) :
    ∃ secrets payValue vbf,
      self.txout_secrets = some secrets
      ∧ self.absolute_fees ≤ v
      ∧ tx.output.map (fun o => o.value)
          = [CValue.confidentialV payValue vbf, CValue.explicitV self.absolute_fees]
      ∧ payValue + self.absolute_fees = v
      ∧ tx.output.getD 1 (TxOut.new_fee 0 0) = TxOut.new_fee self.absolute_fees secrets.asset
      ∧ vbf = vbfLast payValue env.outAbf
          [(secrets.value, secrets.asset_bf, secrets.value_bf)]
          [(self.absolute_fees, 0, 0)]
      ∧ ((payValue : Int) * env.outAbf + vbf + ((self.absolute_fees : Int) * 0 + 0)) % secpN
        = ((secrets.value : Int) * secrets.asset_bf + secrets.value_bf) % secpN := by
  unfold sign_claim_tx at h
  split at h
  next => exact absurd h (by simp)
  next op hop =>
  split at h
  next => exact absurd h (by simp)
  next secrets hsec =>
  split at h
  next => exact absurd h (by simp)
  next v2 hv2 =>
  split at h
  next => exact absurd h (by simp)
  next ov hov =>
  split at h
  next => exact absurd h (by simp)
  next bp hbp =>
  split at h
  next => exact absurd h (by simp)
  next pb hpb =>
  have hvv : v2 = v := by
    rw [hv2] at hv
    exact Option.some.inj hv
  subst hvv
  have hle : self.absolute_fees ≤ v2 := by
    by_contra hgt
    simp [checkedSub, hgt] at hov
  have hov2 : ov = v2 - self.absolute_fees := by
    simp [checkedSub, hle] at hov
    omega
  have htx := Option.some.inj h
  subst htx
  refine ⟨secrets, ov, claim_final_vbf env self
    { outpoint := op, secrets := secrets, utxoValue := v2, outputValue := ov,
      blindingPub := bp, preimageBytes := pb },
    hsec, hle, rfl, by omega, rfl, rfl, ?_⟩
  exact vbfLast_balance ov env.outAbf secrets.value secrets.asset_bf secrets.value_bf
    self.absolute_fees

theorem claim_balance_witness :
    ∃ secrets payValue vbf,
      cOkTx.txout_secrets = some secrets
      ∧ cOkTx.absolute_fees ≤ 1000
      ∧ signedTx0.output.map (fun o => o.value)
          = [CValue.confidentialV payValue vbf, CValue.explicitV cOkTx.absolute_fees]
      ∧ payValue + cOkTx.absolute_fees = 1000
      ∧ signedTx0.output.getD 1 (TxOut.new_fee 0 0)
          = TxOut.new_fee cOkTx.absolute_fees secrets.asset
      ∧ vbf = vbfLast payValue env0.outAbf
          [(secrets.value, secrets.asset_bf, secrets.value_bf)]
          [(cOkTx.absolute_fees, 0, 0)]
      ∧ ((payValue : Int) * env0.outAbf + vbf
          + ((cOkTx.absolute_fees : Int) * 0 + 0)) % secpN
        = ((secrets.value : Int) * secrets.asset_bf + secrets.value_bf) % secpN :=
  claim_balance env0 cOkTx 1 pre0 signedTx0 1000 rfl rfl

/-- Horner form equals the power-sum form of the claim. -/
theorem leValue_eq_sum (bs : List Nat) :
    leValue bs = ∑ i ∈ Finset.range bs.length, bs.getD i 0 * 2 ^ (8 * i) := by
  induction bs with
  | nil => simp [leValue]
  | cons b t ih =>
    rw [leValue, ih]
    simp only [List.length_cons, Finset.sum_range_succ', List.getD_cons_succ,
      List.getD_cons_zero, Nat.mul_zero, pow_zero, Nat.mul_one]
    conv_lhs => rw [Nat.add_comm]
    congr 1
    rw [Finset.mul_sum]
    apply Finset.sum_congr rfl
    intro i _
    have h8 : 8 * (i + 1) = 8 + 8 * i := by omega
    rw [h8, Nat.pow_add]
    ring

/-- Claim C9: bytes_to_u32_little_endian returns the sum of byte i times
2 to the 8*i exactly for byte slices of length at most 4; any longer input
reaches a shift of 32 bits and panics (none); consequently submarine
decoding of a script in which a 33-byte push directly follows OP_ELSE
panics instead of returning an Input error. -/
theorem bytes_to_u32_le_spec (bs : List Nat) (hb : ∀ b ∈ bs, b < 256) :
    (bs.length ≤ 4 →
      bytes_to_u32_little_endian bs
        = some (∑ i ∈ Finset.range bs.length, bs.getD i 0 * 2 ^ (8 * i)))
    ∧ (4 < bs.length → bytes_to_u32_little_endian bs = none)
    ∧ submarine_from_str BitcoinNetwork.Liquid "" c9BadScript 1
        = DecodeResult.panicked := by
  refine ⟨?_, ?_, by decide⟩
  · intro h4
    unfold bytes_to_u32_little_endian
    rw [bytes_to_u32_le_go_spec bs 0 0 hb (by norm_num) (by omega), ← leValue_eq_sum]
    simp
  · intro h4
    exact bytes_to_u32_le_go_overflow bs 0 0 (by omega)

theorem bytes_to_u32_le_spec_witness :
    (([1, 2, 3, 4] : List Nat).length ≤ 4 →
      bytes_to_u32_little_endian [1, 2, 3, 4]
        = some (∑ i ∈ Finset.range ([1, 2, 3, 4] : List Nat).length,
            ([1, 2, 3, 4] : List Nat).getD i 0 * 2 ^ (8 * i)))
    ∧ (4 < ([1, 2, 3, 4] : List Nat).length →
        bytes_to_u32_little_endian [1, 2, 3, 4] = none)
    ∧ submarine_from_str BitcoinNetwork.Liquid "" c9BadScript 1
        = DecodeResult.panicked :=
  bytes_to_u32_le_spec [1, 2, 3, 4] (by decide)


/-- Claim C6: decoding the fixed end-to-end vector script as
ReverseSubmarine with the given blinding key succeeds, yields timelock
1202545 and a receiver public key equal to the public key of the given
secret key, and deriving the confidential address from the decoded script
yields exactly the given literal address string. -/
theorem end_to_end_vector :
    reverse_from_str BitcoinNetwork.LiquidTestnet "url" c6bytes c6BlindingKey
        = DecodeResult.ok c6Decoded
    ∧ c6Decoded.timelock = 1202545
    ∧ c6Decoded.reciever_pubkey = publicKeyCompressed c6ClaimSecret
    ∧ addressToString (to_address c6Decoded) = c6ExpectedAddress := by
  refine ⟨by decide, by decide, by decide, by decide⟩

/-- Claim C3 (amended): for every field set with a 20-byte hashlock,
33-byte compressed public keys and a timelock whose minimal script-integer
encoding is exactly 3 bytes (32768 to 8388607), decoding the encoded
script returns exactly the original fields, for both swap directions. The
full unsigned 32-bit timelock range of the original claim fails, see the
counterexample. -/
theorem decode_encode_roundtrip (net : BitcoinNetwork) (url : String) (bk : Nat)
    (h r snd : List Nat) (tl : Nat)
    (hh : h.length = 20) (hr : r.length = 33) (hs : snd.length = 33)
    (h1 : 32768 ≤ tl) (h2 : tl ≤ 8388607) :
    submarine_from_str net url
        (to_script { network := net, electrum_url := url,
                     swap_type := SwapType.Submarine, hashlock := h,
                     reciever_pubkey := r, timelock := tl, sender_pubkey := snd,
                     blinding_key := bk }) bk
      = DecodeResult.ok { network := net, electrum_url := url,
                          swap_type := SwapType.Submarine, hashlock := h,
                          reciever_pubkey := r, timelock := tl,
                          sender_pubkey := snd, blinding_key := bk }
    ∧ reverse_from_str net url
        (to_script { network := net, electrum_url := url,
                     swap_type := SwapType.ReverseSubmarine, hashlock := h,
                     reciever_pubkey := r, timelock := tl, sender_pubkey := snd,
                     blinding_key := bk }) bk
      = DecodeResult.ok { network := net, electrum_url := url,
                          swap_type := SwapType.ReverseSubmarine, hashlock := h,
                          reciever_pubkey := r, timelock := tl,
                          sender_pubkey := snd, blinding_key := bk } := by
  constructor
  · exact submarine_roundtrip _ rfl (by simp [hh]) (by simp [hr]) (by simp [hs]) h1 h2
  · exact reverse_roundtrip _ rfl (by simp [hh]) (by simp [hr]) (by simp [hs])
      (by simp [hs]) h1 h2

/-- Claim C3 counterexample: with timelock 1 and otherwise valid fields (a
20-byte hashlock and two distinct valid compressed public keys) the encoder
emits the single opcode OP_PUSHNUM_1, the decoder never assigns a timelock,
and decoding returns an Input error instead of the original fields. -/
theorem roundtrip_fails_at_timelock_one :
    submarine_from_str BitcoinNetwork.Liquid "" (to_script cexScript) 1
      ≠ DecodeResult.ok cexScript := by
  decide

theorem decode_encode_roundtrip_witness :
    submarine_from_str BitcoinNetwork.Liquid ""
        (to_script { network := BitcoinNetwork.Liquid, electrum_url := "",
                     swap_type := SwapType.Submarine, hashlock := hash20,
                     reciever_pubkey := keyA, timelock := 1202545,
                     sender_pubkey := keyB, blinding_key := 1 }) 1
      = DecodeResult.ok { network := BitcoinNetwork.Liquid, electrum_url := "",
                          swap_type := SwapType.Submarine, hashlock := hash20,
                          reciever_pubkey := keyA, timelock := 1202545,
                          sender_pubkey := keyB, blinding_key := 1 }
    ∧ reverse_from_str BitcoinNetwork.Liquid ""
        (to_script { network := BitcoinNetwork.Liquid, electrum_url := "",
                     swap_type := SwapType.ReverseSubmarine, hashlock := hash20,
                     reciever_pubkey := keyA, timelock := 1202545,
                     sender_pubkey := keyB, blinding_key := 1 }) 1
      = DecodeResult.ok { network := BitcoinNetwork.Liquid, electrum_url := "",
                          swap_type := SwapType.ReverseSubmarine, hashlock := hash20,
                          reciever_pubkey := keyA, timelock := 1202545,
                          sender_pubkey := keyB, blinding_key := 1 } :=
  decode_encode_roundtrip BitcoinNetwork.Liquid "" 1 hash20 keyA keyB 1202545
    (by decide) (by decide) (by decide) (by decide) (by decide)
